import Mathlib

/-!
Verification of the rule-expansion engine of scripts/expand_rule_sets.py.

Strings are modelled by Lean String (a wrapper around List Char); the
Python string operations the script uses (strip, split on a one-character
separator, substring membership, startswith, lower, int) are embedded as
executable functions on the underlying character list.  The network is
modelled by a function from URL to Option String: some text is a
successful response body, none is any raised fetch error.
-/

namespace ProxyRules

/-- Python str.strip on a character list: drop whitespace from both ends. -/
def stripList (l : List Char) : List Char :=
  ((l.dropWhile Char.isWhitespace).reverse.dropWhile Char.isWhitespace).reverse

/-- Python str.strip. -/
def pyStrip (s : String) : String := String.mk (stripList s.data)

/-- Python membership test c in s for a single character. -/
def hasChar (s : String) (c : Char) : Bool := s.data.contains c

/-- Python test "," in s. -/
def hasComma (s : String) : Bool := hasChar s ','

/-- Whether p is a leading segment of the second list. -/
def listStarts : List Char → List Char → Bool
  | [], _ => true
  | _ :: _, [] => false
  | q :: qs, c :: cs => q = c && listStarts qs cs

/-- Python s.startswith(p). -/
def strStarts (s p : String) : Bool := listStarts p.data s.data

/-- Whether pattern p occurs as a contiguous run inside the second list. -/
def listHasSub (p : List Char) : List Char → Bool
  | [] => p.isEmpty
  | c :: cs => listStarts p (c :: cs) || listHasSub p cs

/-- Python substring test p in s. -/
def hasSub (s p : String) : Bool := listHasSub p.data s.data

/-- Python s.lower(). -/
def lowerStr (s : String) : String := String.mk (s.data.map Char.toLower)

/-- Python s.split(c) for a one-character separator, on character lists.
The result is always nonempty; splitting the empty list yields one empty
piece, exactly as in Python. -/
def splitCharList (c : Char) : List Char → List (List Char)
  | [] => [[]]
  | x :: xs =>
    match splitCharList c xs with
    | [] => [[]]
    | h :: t => if x = c then [] :: h :: t else (x :: h) :: t

/-- Python s.split(c), as Lean strings. -/
def splitChar (c : Char) (s : String) : List String :=
  (splitCharList c s.data).map String.mk

/-- Python s.splitlines() for newline-separated text.  The embedding splits
on the newline character; the extra empty piece a trailing newline produces
is blank and discarded by every consumer below. -/
def splitLines (s : String) : List String := splitChar '\n' s

/-- Value of a decimal digit string. -/
def digitsToNat (l : List Char) : Nat := l.foldl (fun n c => n * 10 + (c.toNat - 48)) 0

/-- Python int(s) for a plain decimal literal: strip, optional sign, then
decimal digits; none models the ValueError path. -/
def pyInt (s : String) : Option Int :=
  match stripList s.data with
  | '-' :: rest =>
    if rest ≠ [] ∧ rest.all Char.isDigit then some (-(digitsToNat rest : Int)) else none
  | '+' :: rest =>
    if rest ≠ [] ∧ rest.all Char.isDigit then some ((digitsToNat rest : Int)) else none
  | t => if t ≠ [] ∧ t.all Char.isDigit then some ((digitsToNat t : Int)) else none

/-- Rule kinds that receive the no-resolve marker (expand_rule_sets.py
line 185). -/
def no_resolve_types : List String := ["IP-CIDR", "IP-CIDR6", "GEOIP", "IP-ASN"]

/-- add_no_resolve from expand_rule_sets.py (lines 168-192): append
",no-resolve" to IP rule kinds that lack it; everything else is returned
unchanged. -/
def add_no_resolve (rule : String) : String :=
  if rule = "" then rule
  else if ¬ hasComma rule then rule
  else
    let parts := splitChar ',' rule
    let rule_type := pyStrip (parts.headD "")
    if rule_type ∈ no_resolve_types then
      if ¬ hasSub (lowerStr rule) "no-resolve" then rule ++ ",no-resolve"
      else rule
    else rule

/-- convert_to_domain_rule from expand_rule_sets.py (lines 195-223): in a
DOMAIN-SET collection a bare domain becomes a DOMAIN-SUFFIX directive, a
line that already has a comma is kept verbatim, and blanks and comments
yield none (Python None); for any other collection kind the stripped line
is returned. -/
def convert_to_domain_rule (line : String) (rule_type : String) : Option String :=
  let l := pyStrip line
  if rule_type = "DOMAIN-SET" then
    if l = "" ∨ strStarts l "#" then none
    else if hasComma l then some l
    else some ("DOMAIN-SUFFIX," ++ l)
  else some l

/-- Condition under which a fetched comment line updates the declared total
(expand_rule_sets.py line 248, with the Python precedence: and binds
tighter than or). -/
def totalCond (line : String) : Bool :=
  (strStarts line "#" && hasSub line "Total:") || (strStarts line "#" && hasSub line "TOTAL:")

/-- Accumulator of download_remote_rules: collected rules and the declared
total parsed so far. -/
structure DlAcc where
  rules : List String
  total : Int
deriving DecidableEq

/-- Total-extraction statement of the loop body (lines 247-255): on a
comment line carrying a Total label, reparse the declared total from the
text after the last colon, swallowing parse failures. -/
def dlTotal (acc : DlAcc) (line : String) : DlAcc :=
  if totalCond line then
    let parts := splitChar ':' line
    if parts.length ≥ 2 then
      match pyInt (parts.getLastD "") with
      | some n => { acc with total := n }
      | none => acc
    else acc
  else acc

/-- Body of the per-line loop of download_remote_rules (lines 245-268). -/
def dlStep (rule_type : String) (acc : DlAcc) (raw : String) : DlAcc :=
  let line := pyStrip raw
  let acc := dlTotal acc line
  if line = "" ∨ strStarts line "#" then acc
  else if rule_type = "DOMAIN-SET" then
    match convert_to_domain_rule line rule_type with
    | some converted => { acc with rules := acc.rules ++ [converted] }
    | none => acc
  else
    { acc with rules := acc.rules ++ [add_no_resolve line] }

/-- download_remote_rules from expand_rule_sets.py (lines 226-275).  The
fetched argument models the requests.get outcome: some text is the
response body, none is any raised error, handled by the except branch that
returns an empty rule list and total 0. -/
def download_remote_rules (fetched : Option String) (rule_type : String) :
    List String × Int :=
  match fetched with
  | none => ([], 0)
  | some text =>
    let acc := (splitLines text).foldl (dlStep rule_type) ⟨[], 0⟩
    (acc.rules, acc.total)

/-- Provenance record appended to rule_set_info (lines 318-322, 337-341). -/
structure RuleSetInfo where
  url : String
  count : Nat
  original_total : Int
deriving DecidableEq

/-- State threaded through the reading loop of process_list_file
(lines 289-292). -/
structure FileState where
  all_rules : List String
  rule_set_count : Nat
  domain_set_count : Nat
  rule_set_info : List RuleSetInfo
deriving DecidableEq

/-- Initial loop state of process_list_file. -/
def initState : FileState := ⟨[], 0, 0, []⟩

/-- Literal (non-reference) branch of the loop (lines 342-369): truncate
domain-family rules to two fields, keep everything else intact, then run
add_no_resolve; a line without a comma falls through with nothing appended.
The inner two-field checks cannot fail when a comma is present, because the
split then yields at least two parts; the unreachable else arms return the
original line. -/
def processLiteral (st : FileState) (original_line : String) : FileState :=
  if hasComma original_line then
    let parts := splitChar ',' original_line
    let rule_type := parts.headD ""
    let processed_rule :=
      if rule_type ∈ ["DOMAIN", "DOMAIN-SUFFIX", "DOMAIN-KEYWORD"] then
        if parts.length ≥ 2 then rule_type ++ "," ++ parts.getD 1 "" else original_line
      else if rule_type = "DOMAIN-SET" then
        if parts.length ≥ 2 then rule_type ++ "," ++ parts.getD 1 "" else original_line
      else if rule_type ∈ ["IP-CIDR", "IP-CIDR6", "GEOIP"] then original_line
      else original_line
    { st with all_rules := st.all_rules ++ [add_no_resolve processed_rule] }
  else st

/-- One iteration of the reading loop of process_list_file (lines 296-369). -/
def processInputLine (fetch : String → Option String) (st : FileState) (line : String) :
    FileState :=
  let original_line := pyStrip line
  if original_line = "" ∨ strStarts original_line "#" then st
  else if strStarts original_line "RULE-SET," then
    let parts := splitChar ',' original_line
    if parts.length ≥ 2 then
      let url := parts.getD 1 ""
      let dl := download_remote_rules (fetch url) "RULE-SET"
      if dl.1 ≠ [] then
        { st with
          all_rules := st.all_rules ++ dl.1
          rule_set_count := st.rule_set_count + 1
          rule_set_info := st.rule_set_info ++ [⟨url, dl.1.length, dl.2⟩] }
      else st
    else st
  else if strStarts original_line "DOMAIN-SET," then
    let parts := splitChar ',' original_line
    if parts.length ≥ 2 then
      let url := parts.getD 1 ""
      let dl := download_remote_rules (fetch url) "DOMAIN-SET"
      if dl.1 ≠ [] then
        { st with
          all_rules := st.all_rules ++ dl.1
          domain_set_count := st.domain_set_count + 1
          rule_set_info := st.rule_set_info ++ [⟨url, dl.1.length, dl.2⟩] }
      else st
    else st
  else processLiteral st original_line

/-- The reading loop of process_list_file (lines 278-373) over the lines of
one input file. -/
def process_list_file (fetch : String → Option String) (inputLines : List String) :
    FileState :=
  inputLines.foldl (processInputLine fetch) initState

/-- Python defaultdict(int) update stats[k] += 1: bump the entry holding
key k, or append a fresh entry at the end (dicts keep insertion order). -/
def bumpKey : List (String × Nat) → String → List (String × Nat)
  | [], k => [(k, 1)]
  | (k', n) :: rest, k => if k' = k then (k', n + 1) :: rest else (k', n) :: bumpKey rest k

/-- get_rule_statistics from expand_rule_sets.py (lines 73-94). -/
def get_rule_statistics (rules : List String) : List (String × Nat) :=
  rules.foldl
    (fun stats rule =>
      if hasComma rule then bumpKey stats (pyStrip ((splitChar ',' rule).headD ""))
      else if pyStrip rule ≠ "" then bumpKey stats "OTHER"
      else stats)
    []

/-- Fixed rendering order of the statistics block (lines 135-149). -/
def headerOrder : List String :=
  ["DOMAIN", "DOMAIN-KEYWORD", "DOMAIN-SUFFIX", "IP-CIDR", "IP-CIDR6", "PROCESS-NAME",
   "USER-AGENT", "GEOIP", "DOMAIN-SET", "URL-REGEX", "AND", "OR", "NOT"]

/-- Dict membership test rule_type in stats. -/
def statsMem (stats : List (String × Nat)) (k : String) : Bool :=
  (stats.find? (fun p => p.1 = k)).isSome

/-- Dict lookup stats[rule_type], guarded by statsMem at every use site. -/
def statsVal (stats : List (String × Nat)) (k : String) : Nat :=
  ((stats.find? (fun p => p.1 = k)).map Prod.snd).getD 0

/-- Source block of the header (lines 119-132). -/
def sourceBlock (rule_set_info : List RuleSetInfo) : List String :=
  ["#", "# Source RULE-SETs:"] ++
  ((List.enumFrom 1 rule_set_info).flatMap fun p =>
    if p.2.original_total > 0 then
      ["#   " ++ toString p.1 ++ ". " ++ p.2.url,
       "#      Downloaded: " ++ toString p.2.count ++ " rules (Source Total: " ++
         toString p.2.original_total ++ ")"]
    else
      ["#   " ++ toString p.1 ++ ". " ++ p.2.url,
       "#      Downloaded: " ++ toString p.2.count ++ " rules"]) ++
  ["#"]

/-- Statistics lines of the header (lines 134-159): fixed-order kinds first,
then the remaining observed kinds sorted ascending, the order Python
sorted produces. -/
def statsLines (stats : List (String × Nat)) : List String :=
  (headerOrder.filter (fun t => statsMem stats t)).map
    (fun t => "# " ++ t ++ ": " ++ toString (statsVal stats t)) ++
  (((stats.map Prod.fst).filter (fun k => ¬ k ∈ headerOrder)).insertionSort (· ≤ ·)).map
    (fun t => "# " ++ t ++ ": " ++ toString (statsVal stats t))

/-- format_header_comment from expand_rule_sets.py (lines 97-163), as the
list of header lines (the Python function returns their newline join); now
is the rendered timestamp.  The empty rule_set_info list plays the role of
Python None: both are falsy at line 119. -/
def format_header_comment (filename now : String) (stats : List (String × Nat))
    (total : Nat) (rule_set_info : List RuleSetInfo) : List String :=
  ["# Name: " ++ filename, "# Updated: " ++ now] ++
  (if rule_set_info ≠ [] then sourceBlock rule_set_info else []) ++
  statsLines stats ++
  ["# Total: " ++ toString total]

/-- Lines of the output file written by process_list_file (lines 375-393):
the header, the blank separator line, then one line per collected rule. -/
def outputLines (fetch : String → Option String) (stem now : String)
    (inputLines : List String) : List String :=
  let st := process_list_file fetch inputLines
  format_header_comment stem now (get_rule_statistics st.all_rules) st.all_rules.length
    st.rule_set_info ++ [""] ++ st.all_rules

/-- Whether a stripped fetched line survives the blank and comment filter
of download_remote_rules. -/
def isKept (l : String) : Bool := ¬ (l = "" ∨ strStarts l "#")

/-- Stripped lines of a fetched document that download_remote_rules keeps. -/
def keptLines (text : String) : List String :=
  ((splitLines text).map pyStrip).filter isKept

/-- URL of the remote RULE-SET in the end-to-end example. -/
def c2Url : String := "https://example.test/rules.list"

/-- Remote document of the end-to-end example. -/
def c2Doc : String := "# Total: 2\nIP-CIDR,10.0.0.0/8,PROXY\nDOMAIN,foo.com,PROXY"

/-- Fetch function of the end-to-end example. -/
def c2Fetch : String → Option String := fun url => if url = c2Url then some c2Doc else none

/-- Input file of the end-to-end example. -/
def c2Input : List String := ["DOMAIN,example.com,PROXY", "RULE-SET," ++ c2Url ++ ",PROXY"]

/-! ### Lemmas about the embedded string primitives -/

theorem data_mk (l : List Char) : (String.mk l).data = l := rfl

theorem data_append (a b : String) : (a ++ b).data = a.data ++ b.data := rfl

theorem eq_empty_iff (s : String) : s = "" ↔ s.data = [] := String.ext_iff

theorem hasComma_iff (s : String) : hasComma s = true ↔ ',' ∈ s.data := by
  simp [hasComma, hasChar]

theorem pyStrip_data (s : String) : (pyStrip s).data = stripList s.data := rfl

theorem listStarts_iff (p s : List Char) : listStarts p s = true ↔ ∃ t, s = p ++ t := by
  induction p generalizing s with
  | nil => simp [listStarts]
  | cons q qs ih =>
    cases s with
    | nil => simp [listStarts]
    | cons c cs =>
      simp only [listStarts, Bool.and_eq_true, decide_eq_true_eq, ih, List.cons_append,
        List.cons.injEq]
      constructor
      · rintro ⟨rfl, t, rfl⟩
        exact ⟨t, rfl, rfl⟩
      · rintro ⟨t, h1, h2⟩
        exact ⟨h1.symm, t, h2⟩

theorem listStarts_ne_head {q c : Char} (h : q ≠ c) (qs cs : List Char) :
    listStarts (q :: qs) (c :: cs) = false := by
  simp [listStarts, h]

theorem split_ne_nil (c : Char) (l : List Char) : splitCharList c l ≠ [] := by
  cases l with
  | nil => simp [splitCharList]
  | cons x xs =>
    simp only [splitCharList]
    rcases h : splitCharList c xs with _ | ⟨hd, tl⟩
    · simp
    · by_cases hx : x = c <;> simp [hx]

theorem split_no {c : Char} {l : List Char} (h : c ∉ l) : splitCharList c l = [l] := by
  induction l with
  | nil => rfl
  | cons x xs ih =>
    simp only [List.mem_cons, not_or] at h
    simp only [splitCharList, ih h.2]
    rw [if_neg (fun hc => h.1 hc.symm)]

theorem split_append {c : Char} {a : List Char} (b : List Char) (h : c ∉ a) :
    splitCharList c (a ++ c :: b) = a :: splitCharList c b := by
  induction a with
  | nil =>
    simp only [List.nil_append, splitCharList]
    rcases hs : splitCharList c b with _ | ⟨hd, tl⟩
    · exact absurd hs (split_ne_nil c b)
    · simp
  | cons x xs ih =>
    simp only [List.mem_cons, not_or] at h
    simp only [List.cons_append, splitCharList, List.append_eq, ih h.2]
    rw [if_neg (fun hc => h.1 hc.symm)]

theorem split_length_two {c : Char} {l : List Char} (h : c ∈ l) :
    2 ≤ (splitCharList c l).length := by
  induction l with
  | nil => simp at h
  | cons x xs ih =>
    simp only [splitCharList]
    rcases hs : splitCharList c xs with _ | ⟨hd, tl⟩
    · exact absurd hs (split_ne_nil c xs)
    · rcases List.mem_cons.mp h with h1 | h2
      · subst h1
        simp
      · have h3 := ih h2
        rw [hs] at h3
        simp only [List.length_cons] at h3
        by_cases hx : x = c
        · simp [hx]
        · simp only [hx, if_false, List.length_cons, ge_iff_le]
          omega

theorem split_head_cons {c x : Char} (hx : x ≠ c) (t : List Char) :
    splitCharList c (x :: t) = (x :: (splitCharList c t).headD []) :: (splitCharList c t).tail := by
  simp only [splitCharList]
  rcases h : splitCharList c t with _ | ⟨hd, tl⟩
  · exact absurd h (split_ne_nil c t)
  · simp [hx]

theorem splitChar_headD (c : Char) (s : String) :
    (splitChar c s).headD "" = String.mk ((splitCharList c s.data).headD []) := by
  unfold splitChar
  rcases h : splitCharList c s.data with _ | ⟨hd, tl⟩
  · exact absurd h (split_ne_nil c s.data)
  · simp

theorem splitChar_getD_one (c : Char) (s : String) :
    (splitChar c s).getD 1 "" = String.mk ((splitCharList c s.data).getD 1 []) := by
  unfold splitChar
  rcases h : splitCharList c s.data with _ | ⟨hd, tl⟩
  · exact absurd h (split_ne_nil c s.data)
  · rcases tl with _ | ⟨hd2, tl2⟩ <;> simp [List.getD]

theorem splitChar_length (c : Char) (s : String) :
    (splitChar c s).length = (splitCharList c s.data).length := by
  simp [splitChar]

theorem hasSub_append_right {p b : List Char} (h : listHasSub p b = true) (a : List Char) :
    listHasSub p (a ++ b) = true := by
  induction a with
  | nil => simpa using h
  | cons x xs ih =>
    simp only [List.cons_append, listHasSub, Bool.or_eq_true]
    exact Or.inr ih

theorem dropWhile_self {α : Type*} (p : α → Bool) (l : List α) :
    (l.dropWhile p).dropWhile p = l.dropWhile p := by
  induction l with
  | nil => rfl
  | cons x xs ih =>
    by_cases h : p x
    · simp [List.dropWhile_cons, h, ih]
    · simp [List.dropWhile_cons, h]

theorem stripList_idem (l : List Char) : stripList (stripList l) = stripList l := by
  by_cases hnil :
      ((l.dropWhile Char.isWhitespace).reverse.dropWhile Char.isWhitespace) = []
  · have h0 : stripList l = [] := by
      show ((l.dropWhile Char.isWhitespace).reverse.dropWhile Char.isWhitespace).reverse = []
      rw [hnil]
      rfl
    rw [h0]
    rfl
  · rcases hbr : ((l.dropWhile Char.isWhitespace).reverse.dropWhile
        Char.isWhitespace).reverse with _ | ⟨c, cs⟩
    · exact absurd (by simpa using congrArg List.reverse hbr) hnil
    · have hbr' : stripList l = c :: cs := hbr
      have hsuf : (l.dropWhile Char.isWhitespace).reverse.dropWhile Char.isWhitespace
          <:+ (l.dropWhile Char.isWhitespace).reverse := List.dropWhile_suffix _
      have hpre : ((l.dropWhile Char.isWhitespace).reverse.dropWhile
          Char.isWhitespace).reverse <+: l.dropWhile Char.isWhitespace :=
        List.reverse_suffix.mp (by simpa using hsuf)
      obtain ⟨t, hat⟩ := hpre
      rw [hbr] at hat
      have h5 : l.dropWhile Char.isWhitespace = c :: (cs ++ t) := by
        rw [← hat, List.cons_append]
      have hane : l.dropWhile Char.isWhitespace ≠ [] := by
        rw [h5]
        exact List.cons_ne_nil _ _
      have hws := List.head_dropWhile_not Char.isWhitespace l hane
      simp only [h5, List.head_cons] at hws
      have h6 : List.dropWhile Char.isWhitespace (c :: cs) = c :: cs := by
        rw [List.dropWhile_cons, hws]
        simp
      have h7 : (c :: cs).reverse
          = (l.dropWhile Char.isWhitespace).reverse.dropWhile Char.isWhitespace := by
        rw [← hbr, List.reverse_reverse]
      calc stripList (stripList l) = stripList (c :: cs) := by rw [hbr']
        _ = ((List.dropWhile Char.isWhitespace (c :: cs)).reverse.dropWhile
              Char.isWhitespace).reverse := rfl
        _ = (((c :: cs).reverse).dropWhile Char.isWhitespace).reverse := by rw [h6]
        _ = (((l.dropWhile Char.isWhitespace).reverse.dropWhile
              Char.isWhitespace).dropWhile Char.isWhitespace).reverse := by rw [h7]
        _ = ((l.dropWhile Char.isWhitespace).reverse.dropWhile Char.isWhitespace).reverse := by
              rw [dropWhile_self]
        _ = stripList l := rfl

theorem pyStrip_idem (s : String) : pyStrip (pyStrip s) = pyStrip s := by
  show String.mk (stripList (stripList s.data)) = String.mk (stripList s.data)
  rw [stripList_idem]

theorem ne_empty_of_data_cons {s : String} {c : Char} {t : List Char} (h : s.data = c :: t) :
    s ≠ "" := by
  intro he
  rw [he] at h
  exact List.noConfusion h

/-! ### Lemmas about add_no_resolve -/

theorem add_no_resolve_cases (r : String) :
    add_no_resolve r = r ∨ add_no_resolve r = r ++ ",no-resolve" := by
  simp only [add_no_resolve]
  split_ifs <;> simp

theorem hasComma_append_left {a : String} (h : hasComma a = true) (b : String) :
    hasComma (a ++ b) = true := by
  rw [hasComma_iff] at h ⊢
  rw [data_append]
  exact List.mem_append_left _ h

theorem hasComma_append_nr (r : String) : hasComma (r ++ ",no-resolve") = true := by
  rw [hasComma_iff, data_append]
  exact List.mem_append_right _ (by decide)

theorem add_no_resolve_hasComma {r : String} (h : hasComma r = true) :
    hasComma (add_no_resolve r) = true := by
  rcases add_no_resolve_cases r with hc | hc <;> rw [hc]
  · exact h
  · exact hasComma_append_nr r

theorem add_no_resolve_no_comma {r : String} (h : hasComma r = false) :
    add_no_resolve r = r := by
  by_cases he : r = "" <;> simp [add_no_resolve, he, h]

theorem lowerStr_append (a b : String) : lowerStr (a ++ b) = lowerStr a ++ lowerStr b := by
  show String.mk ((a.data ++ b.data).map Char.toLower)
      = String.mk (a.data.map Char.toLower ++ b.data.map Char.toLower)
  rw [List.map_append]

theorem hasSub_lower_append_nr (r : String) :
    hasSub (lowerStr (r ++ ",no-resolve")) "no-resolve" = true := by
  rw [lowerStr_append]
  show listHasSub ("no-resolve".data) ((lowerStr r).data ++ (lowerStr ",no-resolve").data) = true
  exact hasSub_append_right (by decide) _

theorem append_nr_ne_empty (r : String) : r ++ ",no-resolve" ≠ "" := by
  intro he
  rw [eq_empty_iff, data_append] at he
  rcases List.append_eq_nil.mp he with ⟨h1, h2⟩
  exact List.noConfusion h2

theorem add_no_resolve_append_nr (r : String) :
    add_no_resolve (r ++ ",no-resolve") = r ++ ",no-resolve" := by
  simp only [add_no_resolve]
  rw [if_neg (append_nr_ne_empty r),
    if_neg (by simp [hasComma_append_nr r])]
  split
  · rw [if_neg (by simp [hasSub_lower_append_nr r])]
  · rfl

/-- C4: for an IP-kind rule line lacking the case-insensitive token
no-resolve the pass appends exactly one ",no-resolve" suffix, the pass is
idempotent, and rules of any other kind are returned unmodified. -/
theorem C4_no_resolve (rule : String) :
    (hasComma rule = true →
      pyStrip ((splitChar ',' rule).headD "") ∈ no_resolve_types →
      hasSub (lowerStr rule) "no-resolve" = false →
      add_no_resolve rule = rule ++ ",no-resolve") ∧
    add_no_resolve (add_no_resolve rule) = add_no_resolve rule ∧
    (pyStrip ((splitChar ',' rule).headD "") ∉ no_resolve_types →
      add_no_resolve rule = rule) := by
  refine ⟨?_, ?_, ?_⟩
  · intro h1 h2 h3
    have hne : rule ≠ "" := by
      intro he
      rw [he] at h1
      simp [hasComma, hasChar] at h1
    simp only [add_no_resolve]
    rw [if_neg hne, if_neg (by simp [h1]), if_pos h2, if_pos (by simp [h3])]
  · rcases add_no_resolve_cases rule with hc | hc
    · rw [hc]
      exact hc
    · rw [hc]
      exact add_no_resolve_append_nr rule
  · intro h2
    by_cases hne : rule = ""
    · simp [add_no_resolve, hne]
    · by_cases hcm : hasComma rule = true
      · simp only [add_no_resolve]
        rw [if_neg hne, if_neg (by simp [hcm]), if_neg h2]
      · exact add_no_resolve_no_comma (by simpa using hcm)

/-- Witness for C4 at concrete rules. -/
theorem C4_no_resolve_witness :
    (add_no_resolve "IP-CIDR,10.0.0.0/8" = "IP-CIDR,10.0.0.0/8" ++ ",no-resolve") ∧
    (add_no_resolve (add_no_resolve "IP-CIDR,10.0.0.0/8") = add_no_resolve "IP-CIDR,10.0.0.0/8") ∧
    (add_no_resolve "DOMAIN,a.com" = "DOMAIN,a.com") :=
  ⟨(C4_no_resolve "IP-CIDR,10.0.0.0/8").1 (by decide) (by decide) (by decide),
   (C4_no_resolve "IP-CIDR,10.0.0.0/8").2.1,
   (C4_no_resolve "DOMAIN,a.com").2.2 (by decide)⟩

/-! ### Lemmas about download_remote_rules -/

theorem dlTotal_rules (acc : DlAcc) (line : String) : (dlTotal acc line).rules = acc.rules := by
  unfold dlTotal
  split
  · dsimp only
    split
    · split <;> rfl
    · rfl
  · rfl

theorem dlTotal_total_of_not {line : String} (acc : DlAcc) (h : totalCond line = false) :
    (dlTotal acc line).total = acc.total := by
  simp [dlTotal, h]

theorem dlStep_rules (rt : String) (acc : DlAcc) (raw : String) :
    (dlStep rt acc raw).rules
      = acc.rules ++
        (if isKept (pyStrip raw) then
          (if rt = "DOMAIN-SET" then (convert_to_domain_rule (pyStrip raw) rt).toList
           else [add_no_resolve (pyStrip raw)])
         else []) := by
  by_cases hk : pyStrip raw = "" ∨ strStarts (pyStrip raw) "#" = true
  · have hk2 : isKept (pyStrip raw) = false := by
      simp only [isKept, decide_eq_false_iff_not, not_not]
      exact hk
    simp only [dlStep, if_pos hk, hk2]
    simp [dlTotal_rules]
  · have hk2 : isKept (pyStrip raw) = true := by
      simp only [isKept, decide_eq_true_eq]
      exact hk
    by_cases hrt : rt = "DOMAIN-SET"
    · subst hrt
      simp only [dlStep, if_neg hk, hk2, if_pos rfl]
      rcases hc : convert_to_domain_rule (pyStrip raw) "DOMAIN-SET" with _ | c <;>
        simp [hc, dlTotal_rules]
    · simp only [dlStep, if_neg hk, hk2, if_neg hrt]
      simp [dlTotal_rules, hrt]

theorem dlStep_total_eq (rt : String) (acc : DlAcc) (raw : String) :
    (dlStep rt acc raw).total = (dlTotal acc (pyStrip raw)).total := by
  simp only [dlStep]
  split
  · rfl
  · split
    · split <;> rfl
    · rfl

theorem foldl_dlStep_rules (rt : String) (lines : List String) : ∀ acc : DlAcc,
    (lines.foldl (dlStep rt) acc).rules
      = acc.rules ++ ((lines.map pyStrip).filter isKept).flatMap (fun l =>
          if rt = "DOMAIN-SET" then (convert_to_domain_rule l rt).toList
          else [add_no_resolve l]) := by
  induction lines with
  | nil => intro acc; simp
  | cons raw rest ih =>
    intro acc
    simp only [List.foldl_cons, List.map_cons, List.filter_cons]
    rw [ih, dlStep_rules]
    by_cases hk : isKept (pyStrip raw) = true
    · simp [hk, List.append_assoc]
    · simp only [Bool.not_eq_true] at hk
      simp [hk]

theorem foldl_dlStep_total_of_not (rt : String) (lines : List String) : ∀ acc : DlAcc,
    (∀ raw ∈ lines, totalCond (pyStrip raw) = false) →
    (lines.foldl (dlStep rt) acc).total = acc.total := by
  induction lines with
  | nil => intro acc _; rfl
  | cons raw rest ih =>
    intro acc h
    simp only [List.foldl_cons]
    rw [ih _ (fun r hr => h r (List.mem_cons_of_mem _ hr)), dlStep_total_eq,
      dlTotal_total_of_not _ (h raw (List.mem_cons_self _ _))]

theorem flatMap_single {α β : Type*} (f : α → β) (l : List α) :
    (l.flatMap fun a => [f a]) = l.map f := by
  induction l <;> simp_all

theorem flatMap_toList {α β : Type*} (f : α → Option β) (l : List α) :
    (l.flatMap fun a => (f a).toList) = l.filterMap f := by
  induction l with
  | nil => rfl
  | cons x xs ih =>
    rcases h : f x with _ | b <;> simp [List.filterMap_cons, h, ih]

theorem download_rules_rs (text : String) :
    (download_remote_rules (some text) "RULE-SET").1 = (keptLines text).map add_no_resolve := by
  show ((splitLines text).foldl (dlStep "RULE-SET") ⟨[], 0⟩).rules = _
  rw [foldl_dlStep_rules]
  simp only [keptLines, List.nil_append]
  rw [show (fun l => if ("RULE-SET" : String) = "DOMAIN-SET" then
        (convert_to_domain_rule l "RULE-SET").toList else [add_no_resolve l])
      = fun l : String => [add_no_resolve l] from by
    funext l
    rw [if_neg (by decide)]]
  exact flatMap_single _ _

theorem download_rules_ds (text : String) :
    (download_remote_rules (some text) "DOMAIN-SET").1
      = (keptLines text).filterMap (fun l => convert_to_domain_rule l "DOMAIN-SET") := by
  show ((splitLines text).foldl (dlStep "DOMAIN-SET") ⟨[], 0⟩).rules = _
  rw [foldl_dlStep_rules]
  simp only [keptLines, List.nil_append]
  simp only [if_true]
  exact flatMap_toList _ _

theorem download_total_of_not {text : String}
    (h : ∀ raw ∈ splitLines text, totalCond (pyStrip raw) = false) (rt : String) :
    (download_remote_rules (some text) rt).2 = 0 := by
  show ((splitLines text).foldl (dlStep rt) ⟨[], 0⟩).total = 0
  rw [foldl_dlStep_total_of_not rt _ _ h]

theorem convert_bare {line : String} (h1 : hasComma (pyStrip line) = false)
    (h2 : pyStrip line ≠ "") (h3 : strStarts (pyStrip line) "#" = false) :
    convert_to_domain_rule line "DOMAIN-SET" = some ("DOMAIN-SUFFIX," ++ pyStrip line) := by
  simp only [convert_to_domain_rule, if_pos rfl]
  have hcond : ¬ (pyStrip line = "" ∨ strStarts (pyStrip line) "#" = true) := by
    simp [h2, h3]
  have hcomma : ¬ (hasComma (pyStrip line) = true) := by
    simp [h1]
  rw [if_neg hcond, if_neg hcomma]
  simp

theorem convert_delimited {line : String} (h1 : hasComma (pyStrip line) = true)
    (h3 : strStarts (pyStrip line) "#" = false) :
    convert_to_domain_rule line "DOMAIN-SET" = some (pyStrip line) := by
  have h2 : pyStrip line ≠ "" := by
    intro he
    rw [he] at h1
    simp [hasComma, hasChar] at h1
  simp only [convert_to_domain_rule, if_pos rfl]
  have hcond : ¬ (pyStrip line = "" ∨ strStarts (pyStrip line) "#" = true) := by
    simp [h2, h3]
  rw [if_neg hcond, if_pos h1]
  simp

/-- C5: a DOMAIN-SET-resolved bare domain becomes DOMAIN-SUFFIX over the
literal, a fetched line that already has a delimiter is kept verbatim, the
DOMAIN-SET resolution path never applies add_no_resolve while the RULE-SET
path maps add_no_resolve over every kept line, and an IP-kind line fetched
through DOMAIN-SET stays without the no-resolve marker. -/
theorem C5_domain_set (line text : String) :
    (hasComma (pyStrip line) = false → pyStrip line ≠ "" →
      strStarts (pyStrip line) "#" = false →
      convert_to_domain_rule line "DOMAIN-SET" = some ("DOMAIN-SUFFIX," ++ pyStrip line)) ∧
    (hasComma (pyStrip line) = true → strStarts (pyStrip line) "#" = false →
      convert_to_domain_rule line "DOMAIN-SET" = some (pyStrip line)) ∧
    (download_remote_rules (some text) "DOMAIN-SET").1
      = (keptLines text).filterMap (fun l => convert_to_domain_rule l "DOMAIN-SET") ∧
    (download_remote_rules (some text) "RULE-SET").1 = (keptLines text).map add_no_resolve ∧
    download_remote_rules (some "IP-CIDR,10.0.0.0/8,PROXY") "DOMAIN-SET"
      = (["IP-CIDR,10.0.0.0/8,PROXY"], 0) :=
  ⟨fun h1 h2 h3 => convert_bare h1 h2 h3, fun h1 h3 => convert_delimited h1 h3,
   download_rules_ds text, download_rules_rs text, by decide⟩

/-- Witness for C5 at a bare domain and a delimited line. -/
theorem C5_domain_set_witness :
    convert_to_domain_rule "foo.example.com" "DOMAIN-SET"
      = some ("DOMAIN-SUFFIX," ++ pyStrip "foo.example.com") ∧
    convert_to_domain_rule "DOMAIN,bar.com,PROXY" "DOMAIN-SET"
      = some (pyStrip "DOMAIN,bar.com,PROXY") :=
  ⟨(C5_domain_set "foo.example.com" "").1 (by decide) (by decide) (by decide),
   (C5_domain_set "DOMAIN,bar.com,PROXY" "").2.1 (by decide) (by decide)⟩

/-- C6: a fetched comment line with a Total label sets the declared total
to the integer after the last colon, documents without such a line report
0, and a failed parse is swallowed, leaving the prior value and still
collecting the rules. -/
theorem C6_declared_total (rt text : String)
    (h : ∀ raw ∈ splitLines text, totalCond (pyStrip raw) = false) :
    (download_remote_rules (some "# Total: 42\nIP-CIDR,10.0.0.0/8,PROXY") "RULE-SET").2 = 42 ∧
    (download_remote_rules (some "# TOTAL: 5") "RULE-SET").2 = 5 ∧
    (download_remote_rules (some text) rt).2 = 0 ∧
    download_remote_rules (some "# Total: oops\nDOMAIN,a.com,PROXY") "RULE-SET"
      = (["DOMAIN,a.com,PROXY"], 0) ∧
    download_remote_rules (some "# Total: 7\n# Total: oops\nDOMAIN,a.com,PROXY") "RULE-SET"
      = (["DOMAIN,a.com,PROXY"], 7) ∧
    (download_remote_rules (some "# Total: 12:34") "RULE-SET").2 = 34 :=
  ⟨by decide, by decide, download_total_of_not h rt, by decide, by decide, by decide⟩

/-- Witness for C6 on a document with no Total comment. -/
theorem C6_declared_total_witness :
    (download_remote_rules (some "DOMAIN,a.com,PROXY\n# plain comment") "RULE-SET").2 = 0 :=
  (C6_declared_total "RULE-SET" "DOMAIN,a.com,PROXY\n# plain comment" (by decide)).2.2.1

/-! ### Lemmas about the reference branches of process_list_file -/

theorem ref_branch_state (fetch : String → Option String) (st : FileState) (line : String)
    (href : strStarts (pyStrip line) "RULE-SET," = true ∨
      strStarts (pyStrip line) "DOMAIN-SET," = true)
    (hrs : (download_remote_rules (fetch ((splitChar ',' (pyStrip line)).getD 1 ""))
      "RULE-SET").1 = [])
    (hds : (download_remote_rules (fetch ((splitChar ',' (pyStrip line)).getD 1 ""))
      "DOMAIN-SET").1 = []) :
    processInputLine fetch st line = st := by
  rcases href with h | h
  · obtain ⟨t, hdata⟩ := (listStarts_iff _ _).mp h
    have hcons : (pyStrip line).data = 'R' :: ("ULE-SET,".data ++ t) := by
      rw [hdata]
      rfl
    have hne : pyStrip line ≠ "" := ne_empty_of_data_cons hcons
    have hhash : strStarts (pyStrip line) "#" = false := by
      show listStarts "#".data (pyStrip line).data = false
      rw [hcons]
      exact listStarts_ne_head (by decide) _ _
    have hcm : ',' ∈ (pyStrip line).data := by
      rw [hdata]
      exact List.mem_append_left _ (by decide)
    have hlen : (splitChar ',' (pyStrip line)).length ≥ 2 := by
      rw [splitChar_length]
      exact split_length_two hcm
    simp only [processInputLine]
    have hskip : ¬ (pyStrip line = "" ∨ strStarts (pyStrip line) "#" = true) := by
      simp [hne, hhash]
    rw [if_neg hskip, if_pos h, if_pos hlen, hrs]
    simp
  · obtain ⟨t, hdata⟩ := (listStarts_iff _ _).mp h
    have hcons : (pyStrip line).data = 'D' :: ("OMAIN-SET,".data ++ t) := by
      rw [hdata]
      rfl
    have hne : pyStrip line ≠ "" := ne_empty_of_data_cons hcons
    have hhash : strStarts (pyStrip line) "#" = false := by
      show listStarts "#".data (pyStrip line).data = false
      rw [hcons]
      exact listStarts_ne_head (by decide) _ _
    have hrsfalse : strStarts (pyStrip line) "RULE-SET," = false := by
      show listStarts "RULE-SET,".data (pyStrip line).data = false
      rw [hcons]
      exact listStarts_ne_head (by decide) _ _
    have hcm : ',' ∈ (pyStrip line).data := by
      rw [hdata]
      exact List.mem_append_left _ (by decide)
    have hlen : (splitChar ',' (pyStrip line)).length ≥ 2 := by
      rw [splitChar_length]
      exact split_length_two hcm
    simp only [processInputLine]
    have hskip : ¬ (pyStrip line = "" ∨ strStarts (pyStrip line) "#" = true) := by
      simp [hne, hhash]
    rw [if_neg hskip, if_neg (by simp [hrsfalse]), if_pos h, if_pos hlen, hds]
    simp

/-- C7: a reference directive whose fetch raises returns zero rules and a
zero declared total, leaves the state untouched (no counter bump, no
provenance entry), and the rest of the file is processed as if the
directive were absent. -/
theorem C7_fetch_failure (fetch : String → Option String) (st : FileState) (line : String)
    (rest : List String)
    (href : strStarts (pyStrip line) "RULE-SET," = true ∨
      strStarts (pyStrip line) "DOMAIN-SET," = true)
    (hfail : fetch ((splitChar ',' (pyStrip line)).getD 1 "") = none) :
    download_remote_rules none "RULE-SET" = ([], 0) ∧
    download_remote_rules none "DOMAIN-SET" = ([], 0) ∧
    processInputLine fetch st line = st ∧
    (line :: rest).foldl (processInputLine fetch) st
      = rest.foldl (processInputLine fetch) st := by
  have hst : processInputLine fetch st line = st :=
    ref_branch_state fetch st line href (by rw [hfail]; rfl) (by rw [hfail]; rfl)
  exact ⟨rfl, rfl, hst, by rw [List.foldl_cons, hst]⟩

/-- Witness for C7 at a concrete RULE-SET line whose fetch fails. -/
theorem C7_fetch_failure_witness :
    processInputLine (fun _ => none) initState "RULE-SET,https://dead.example/a.list,PROXY"
      = initState :=
  (C7_fetch_failure (fun _ => none) initState "RULE-SET,https://dead.example/a.list,PROXY" []
    (by decide) rfl).2.2.1

/-- C10: a reference whose successful fetch keeps zero rules (for example a
document of comments and blank lines) leaves the state untouched and is
indistinguishable, at the output interface, from a failed fetch. -/
theorem C10_empty_reference (fetch₁ fetch₂ : String → Option String) (st : FileState)
    (line text : String)
    (href : strStarts (pyStrip line) "RULE-SET," = true ∨
      strStarts (pyStrip line) "DOMAIN-SET," = true)
    (h1 : fetch₁ ((splitChar ',' (pyStrip line)).getD 1 "") = some text)
    (h2 : fetch₂ ((splitChar ',' (pyStrip line)).getD 1 "") = none)
    (hkept : keptLines text = []) :
    processInputLine fetch₁ st line = st ∧
    processInputLine fetch₁ st line = processInputLine fetch₂ st line := by
  have hs1 : processInputLine fetch₁ st line = st := by
    refine ref_branch_state fetch₁ st line href ?_ ?_
    · rw [h1, download_rules_rs, hkept]
      rfl
    · rw [h1, download_rules_ds, hkept]
      rfl
  have hs2 : processInputLine fetch₂ st line = st :=
    ref_branch_state fetch₂ st line href (by rw [h2]; rfl) (by rw [h2]; rfl)
  exact ⟨hs1, hs1.trans hs2.symm⟩

/-- Witness for C10 with a remote document holding only comments and
blank lines. -/
theorem C10_empty_reference_witness :
    processInputLine (fun _ => some "# only a comment\n\n# another") initState
      "RULE-SET,https://example.test/empty.list,PROXY" = initState ∧
    processInputLine (fun _ => some "# only a comment\n\n# another") initState
      "RULE-SET,https://example.test/empty.list,PROXY"
      = processInputLine (fun _ => none) initState
          "RULE-SET,https://example.test/empty.list,PROXY" :=
  C10_empty_reference (fun _ => some "# only a comment\n\n# another") (fun _ => none)
    initState "RULE-SET,https://example.test/empty.list,PROXY" "# only a comment\n\n# another"
    (by decide) rfl rfl (by decide)

/-! ### Lemmas about the literal branch of process_list_file -/

theorem takeWhile_all_append {α : Type*} {p : α → Bool} {a : List α}
    (ha : ∀ x ∈ a, p x = true) {c : α} (hc : p c = false) (t : List α) :
    (a ++ c :: t).takeWhile p = a := by
  induction a with
  | nil => simp [List.takeWhile_cons, hc]
  | cons x xs ih =>
    simp only [List.cons_append, List.takeWhile_cons, ha x (List.mem_cons_self _ _), if_true]
    rw [ih (fun y hy => ha y (List.mem_cons_of_mem _ hy))]

theorem split_head (c : Char) (l : List Char) :
    (splitCharList c l).headD [] = l.takeWhile (fun x => !(x = c)) := by
  induction l with
  | nil => rfl
  | cons x xs ih =>
    by_cases hx : x = c
    · subst hx
      simp only [splitCharList]
      rcases h : splitCharList x xs with _ | ⟨hd, tl⟩
      · exact absurd h (split_ne_nil _ _)
      · simp [List.takeWhile_cons]
    · rw [split_head_cons hx]
      simp only [List.headD_cons, List.takeWhile_cons, hx, decide_False, Bool.not_false,
        if_true, ih]

theorem add_no_resolve_other_kind {r : String}
    (h : pyStrip ((splitChar ',' r).headD "") ∉ no_resolve_types) :
    add_no_resolve r = r := by
  by_cases hne : r = ""
  · simp [add_no_resolve, hne]
  · by_cases hcm : hasComma r = true
    · simp only [add_no_resolve]
      rw [if_neg hne, if_neg (by simp [hcm]), if_neg h]
    · exact add_no_resolve_no_comma (by simpa using hcm)

theorem add_no_resolve_concat_kind (K f1 : String) (hK : ',' ∉ K.data)
    (hKne : pyStrip K ∉ no_resolve_types) :
    add_no_resolve (K ++ "," ++ f1) = K ++ "," ++ f1 := by
  apply add_no_resolve_other_kind
  rw [splitChar_headD]
  have hdata : (K ++ "," ++ f1).data = K.data ++ ',' :: f1.data := by
    rw [data_append, data_append]
    simp [List.append_assoc]
  rw [hdata, split_append _ hK]
  simpa using hKne

theorem literal_trunc_core (fetch : String → Option String) (st : FileState) (line : String)
    (K : String)
    (hhead : (splitChar ',' (pyStrip line)).headD "" = K)
    (h2 : hasComma (pyStrip line) = true)
    (hKc : ',' ∉ K.data)
    (hKne : pyStrip K ∉ no_resolve_types)
    (hKdom : K ∈ (["DOMAIN", "DOMAIN-SUFFIX", "DOMAIN-KEYWORD"] : List String))
    (hKhash : strStarts K "#" = false)
    (hKrs : K ≠ "RULE-SET") (hKds : K ≠ "DOMAIN-SET") :
    processInputLine fetch st line =
      { st with all_rules := st.all_rules ++
          [K ++ "," ++ (splitChar ',' (pyStrip line)).getD 1 ""] } := by
  have hcm : ',' ∈ (pyStrip line).data := (hasComma_iff _).mp h2
  have hne : pyStrip line ≠ "" := by
    intro he
    rw [he] at h2
    simp [hasComma, hasChar] at h2
  have ht : (pyStrip line).data.takeWhile (fun x => !(x = ',')) = K.data := by
    rw [splitChar_headD] at hhead
    have hd := congrArg String.data hhead
    rw [data_mk, split_head] at hd
    exact hd
  have hhash : strStarts (pyStrip line) "#" = false := by
    rcases hb : strStarts (pyStrip line) "#" with _ | _
    · rfl
    · exfalso
      obtain ⟨t, hdata⟩ := (listStarts_iff _ _).mp hb
      have hdata2 : (pyStrip line).data = '#' :: t := hdata
      rw [hdata2, List.takeWhile_cons] at ht
      simp only [show ((!('#' = ',') : Bool)) = true from by decide, if_true] at ht
      have : strStarts K "#" = true := by
        show listStarts "#".data K.data = true
        rw [← ht]
        simp [listStarts]
      rw [this] at hKhash
      exact Bool.noConfusion hKhash
  have hrs : strStarts (pyStrip line) "RULE-SET," = false := by
    rcases hb : strStarts (pyStrip line) "RULE-SET," with _ | _
    · rfl
    · exfalso
      obtain ⟨t, hdata⟩ := (listStarts_iff _ _).mp hb
      have hdata2 : (pyStrip line).data = "RULE-SET".data ++ ',' :: t := hdata
      rw [hdata2, takeWhile_all_append (by decide) (by decide)] at ht
      exact hKrs (String.ext_iff.mpr ht.symm)
  have hds : strStarts (pyStrip line) "DOMAIN-SET," = false := by
    rcases hb : strStarts (pyStrip line) "DOMAIN-SET," with _ | _
    · rfl
    · exfalso
      obtain ⟨t, hdata⟩ := (listStarts_iff _ _).mp hb
      have hdata2 : (pyStrip line).data = "DOMAIN-SET".data ++ ',' :: t := hdata
      rw [hdata2, takeWhile_all_append (by decide) (by decide)] at ht
      exact hKds (String.ext_iff.mpr ht.symm)
  have hskip : ¬ (pyStrip line = "" ∨ strStarts (pyStrip line) "#" = true) := by
    simp [hne, hhash]
  have hrs' : ¬ (strStarts (pyStrip line) "RULE-SET," = true) := by
    simp [hrs]
  have hds' : ¬ (strStarts (pyStrip line) "DOMAIN-SET," = true) := by
    simp [hds]
  simp only [processInputLine]
  rw [if_neg hskip, if_neg hrs', if_neg hds']
  simp only [processLiteral]
  rw [if_pos h2, hhead, if_pos hKdom,
    if_pos (show (splitChar ',' (pyStrip line)).length ≥ 2 from by
      rw [splitChar_length]
      exact split_length_two hcm),
    add_no_resolve_concat_kind K _ hKc hKne]

/-- C3: a literal line whose kind is DOMAIN, DOMAIN-SUFFIX or
DOMAIN-KEYWORD and that has at least two comma-separated fields is emitted
as exactly kind,field1: the routing-policy field and every later field is
dropped. -/
theorem C3_domain_truncation (fetch : String → Option String) (st : FileState) (line : String)
    (h1 : (splitChar ',' (pyStrip line)).headD ""
      ∈ (["DOMAIN", "DOMAIN-SUFFIX", "DOMAIN-KEYWORD"] : List String))
    (h2 : hasComma (pyStrip line) = true) :
    processInputLine fetch st line =
      { st with all_rules := st.all_rules ++
          [(splitChar ',' (pyStrip line)).headD "" ++ "," ++
            (splitChar ',' (pyStrip line)).getD 1 ""] } := by
  simp only [List.mem_cons, List.not_mem_nil, or_false] at h1
  rcases h1 with h1 | h1 | h1 <;>
    rw [h1] <;>
    exact literal_trunc_core fetch st line _ h1 h2 (by decide) (by decide) (by decide)
      (by decide) (by decide) (by decide)

/-- Witness for C3 at a line with two trailing fields. -/
theorem C3_domain_truncation_witness :
    processInputLine (fun _ => none) initState "DOMAIN-SUFFIX,example.org,PROXY,extended"
      = { initState with all_rules := ["DOMAIN-SUFFIX,example.org"] } := by
  have h := C3_domain_truncation (fun _ => none) initState
    "DOMAIN-SUFFIX,example.org,PROXY,extended" (by decide) (by decide)
  rw [h]
  decide

/-- C1 counterexample: the input line foobar is non-blank, non-comment and
has no comma (kind OTHER), yet the rule body produced from the one-line
file is empty: the line is not passed through. -/
theorem C1_counterexample :
    pyStrip "foobar" ≠ "" ∧ strStarts (pyStrip "foobar") "#" = false ∧
    hasComma (pyStrip "foobar") = false ∧
    (process_list_file (fun _ => none) ["foobar"]).all_rules = [] := by
  refine ⟨by decide, by decide, by decide, by decide⟩

/-- C1 amended: a non-blank, non-comment literal line without a comma is
silently dropped: processing it leaves the state unchanged, so the line
never reaches the output body. -/
theorem C1_other_dropped (fetch : String → Option String) (st : FileState) (line : String)
    (h1 : pyStrip line ≠ "") (h2 : strStarts (pyStrip line) "#" = false)
    (h3 : hasComma (pyStrip line) = false) :
    processInputLine fetch st line = st := by
  have hnc : ',' ∉ (pyStrip line).data := by
    intro hm
    rw [(hasComma_iff _).mpr hm] at h3
    exact Bool.noConfusion h3
  have hrs : ¬ (strStarts (pyStrip line) "RULE-SET," = true) := by
    intro hb
    obtain ⟨t, hdata⟩ := (listStarts_iff _ _).mp hb
    apply hnc
    rw [hdata]
    exact List.mem_append_left _ (by decide)
  have hds : ¬ (strStarts (pyStrip line) "DOMAIN-SET," = true) := by
    intro hb
    obtain ⟨t, hdata⟩ := (listStarts_iff _ _).mp hb
    apply hnc
    rw [hdata]
    exact List.mem_append_left _ (by decide)
  have hskip : ¬ (pyStrip line = "" ∨ strStarts (pyStrip line) "#" = true) := by
    simp [h1, h2]
  simp only [processInputLine]
  rw [if_neg hskip, if_neg hrs, if_neg hds]
  simp only [processLiteral]
  rw [if_neg (by simp [h3])]

/-- Witness for the amended C1 at the line foobar. -/
theorem C1_other_dropped_witness :
    processInputLine (fun _ => none) initState "foobar" = initState :=
  C1_other_dropped (fun _ => none) initState "foobar" (by decide) (by decide) (by decide)

/-! ### The end-to-end example (C2) -/

theorem c2_state : process_list_file c2Fetch c2Input
    = ⟨["DOMAIN,example.com", "IP-CIDR,10.0.0.0/8,PROXY,no-resolve", "DOMAIN,foo.com,PROXY"],
       1, 0, [⟨c2Url, 2, 2⟩]⟩ := by decide

theorem c2_output (now : String) :
    outputLines c2Fetch "sample" now c2Input
      = ["# Name: sample", "# Updated: " ++ now, "#", "# Source RULE-SETs:",
         "#   1. " ++ c2Url, "#      Downloaded: 2 rules (Source Total: 2)", "#",
         "# DOMAIN: 2", "# IP-CIDR: 1", "# Total: 3", "",
         "DOMAIN,example.com", "IP-CIDR,10.0.0.0/8,PROXY,no-resolve",
         "DOMAIN,foo.com,PROXY"] := by
  show format_header_comment "sample" now
      (get_rule_statistics (process_list_file c2Fetch c2Input).all_rules)
      (process_list_file c2Fetch c2Input).all_rules.length
      (process_list_file c2Fetch c2Input).rule_set_info
      ++ [""] ++ (process_list_file c2Fetch c2Input).all_rules = _
  rw [c2_state]
  rfl

/-- C2 counterexample: on the end-to-end example the body is not the two
claimed lines: the fetched DOMAIN,foo.com,PROXY passes through as a third
line, and the header total is 3, not 2. -/
theorem C2_counterexample :
    (process_list_file c2Fetch c2Input).all_rules
      ≠ ["DOMAIN,example.com", "IP-CIDR,10.0.0.0/8,PROXY,no-resolve"] ∧
    "DOMAIN,foo.com,PROXY" ∈ (process_list_file c2Fetch c2Input).all_rules ∧
    "# Total: 2" ∉ outputLines c2Fetch "sample" "TS" c2Input ∧
    "# Total: 3" ∈ outputLines c2Fetch "sample" "TS" c2Input := by
  rw [c2_state, c2_output]
  refine ⟨by decide, by decide, by decide, by decide⟩


/-- C2 amended: the end-to-end example produces exactly the three body
lines DOMAIN,example.com, IP-CIDR,10.0.0.0/8,PROXY,no-resolve and the
unchanged passthrough DOMAIN,foo.com,PROXY, preceded by a header with
Total 3 and one source entry with Downloaded 2 and Source Total 2. -/
theorem C2_end_to_end (now : String) :
    outputLines c2Fetch "sample" now c2Input
      = ["# Name: sample", "# Updated: " ++ now, "#", "# Source RULE-SETs:",
         "#   1. " ++ c2Url, "#      Downloaded: 2 rules (Source Total: 2)", "#",
         "# DOMAIN: 2", "# IP-CIDR: 1", "# Total: 3", "",
         "DOMAIN,example.com", "IP-CIDR,10.0.0.0/8,PROXY,no-resolve",
         "DOMAIN,foo.com,PROXY"] := c2_output now

/-- Witness for C2 at a fixed timestamp. -/
theorem C2_end_to_end_witness :
    outputLines c2Fetch "sample" "2025-01-01 00:00:00" c2Input
      = ["# Name: sample", "# Updated: " ++ "2025-01-01 00:00:00", "#", "# Source RULE-SETs:",
         "#   1. " ++ c2Url, "#      Downloaded: 2 rules (Source Total: 2)", "#",
         "# DOMAIN: 2", "# IP-CIDR: 1", "# Total: 3", "",
         "DOMAIN,example.com", "IP-CIDR,10.0.0.0/8,PROXY,no-resolve",
         "DOMAIN,foo.com,PROXY"] :=
  C2_end_to_end "2025-01-01 00:00:00"

/-! ### Header determinism (C8) -/

theorem find?_eq_head_filter {α : Type*} (p : α → Bool) (l : List α) :
    l.find? p = (l.filter p).head? := by
  induction l with
  | nil => rfl
  | cons x xs ih =>
    by_cases h : p x = true
    · rw [List.find?_cons_of_pos _ h, List.filter_cons_of_pos h, List.head?_cons]
    · rw [List.find?_cons_of_neg _ h, List.filter_cons_of_neg (by simpa using h), ih]

theorem length_filter_key_le_one {l : List (String × Nat)}
    (hnd : (l.map Prod.fst).Nodup) (k : String) :
    (l.filter (fun p => p.1 = k)).length ≤ 1 := by
  induction l with
  | nil => simp
  | cons a rest ih =>
    simp only [List.map_cons, List.nodup_cons] at hnd
    by_cases h : a.1 = k
    · have hrest : rest.filter (fun p => p.1 = k) = [] := by
        rw [List.filter_eq_nil_iff]
        intro b hb hbk
        apply hnd.1
        rw [h, ← (by simpa using hbk : b.1 = k)]
        exact List.mem_map_of_mem Prod.fst hb
      simp [List.filter_cons, h, hrest]
    · simpa [List.filter_cons, h] using ih hnd.2

theorem perm_eq_of_length_le_one {α : Type*} {l₁ l₂ : List α} (h : l₁.Perm l₂)
    (hl : l₁.length ≤ 1) : l₁ = l₂ := by
  rcases l₁ with _ | ⟨a, l₁⟩
  · exact (h.symm.eq_nil).symm
  · rcases l₁ with _ | ⟨b, l₁⟩
    · exact List.Perm.singleton_eq h
    · simp at hl

theorem find?_perm {l₁ l₂ : List (String × Nat)} (hp : l₁.Perm l₂)
    (hnd : (l₁.map Prod.fst).Nodup) (k : String) :
    l₁.find? (fun p => p.1 = k) = l₂.find? (fun p => p.1 = k) := by
  rw [find?_eq_head_filter, find?_eq_head_filter,
    perm_eq_of_length_le_one (hp.filter _) (length_filter_key_le_one hnd k)]

theorem insertionSort_eq_of_perm {l₁ l₂ : List String} (h : l₁.Perm l₂) :
    l₁.insertionSort (· ≤ ·) = l₂.insertionSort (· ≤ ·) :=
  List.eq_of_perm_of_sorted
    ((List.perm_insertionSort _ l₁).trans (h.trans (List.perm_insertionSort _ l₂).symm))
    (List.sorted_insertionSort _ l₁) (List.sorted_insertionSort _ l₂)

theorem statsLines_perm {s₁ s₂ : List (String × Nat)} (hp : s₁.Perm s₂)
    (hnd : (s₁.map Prod.fst).Nodup) : statsLines s₁ = statsLines s₂ := by
  have hmem : statsMem s₁ = statsMem s₂ := by
    funext k
    simp [statsMem, find?_perm hp hnd k]
  have hval : statsVal s₁ = statsVal s₂ := by
    funext k
    simp [statsVal, find?_perm hp hnd k]
  unfold statsLines
  rw [hmem, hval, insertionSort_eq_of_perm ((hp.map Prod.fst).filter _)]

theorem format_header_perm (name now : String) {s₁ s₂ : List (String × Nat)}
    (hp : s₁.Perm s₂) (hnd : (s₁.map Prod.fst).Nodup) (total : Nat)
    (info : List RuleSetInfo) :
    format_header_comment name now s₁ total info
      = format_header_comment name now s₂ total info := by
  unfold format_header_comment
  rw [statsLines_perm hp hnd]

theorem outputLines_eraseIdx (fetch : String → Option String) (name : String)
    (L : List String) (now₁ now₂ : String) :
    (outputLines fetch name now₁ L).eraseIdx 1 = (outputLines fetch name now₂ L).eraseIdx 1 := by
  simp only [outputLines, format_header_comment, List.cons_append, List.nil_append,
    List.eraseIdx_cons_succ, List.eraseIdx_cons_zero]

/-- C8: with the fetch outcomes fixed, the produced lines are a function of
the input alone: two runs differ only in the timestamp line, and the header
is invariant under reordering the statistics map, whose rendering order is
fixed (the predefined kind order, then the remaining kinds sorted). -/
theorem C8_deterministic (fetch : String → Option String) (name now₁ now₂ : String)
    (L : List String) (stats₁ stats₂ : List (String × Nat)) (total : Nat)
    (info : List RuleSetInfo) (hp : stats₁.Perm stats₂)
    (hnd : (stats₁.map Prod.fst).Nodup) :
    (outputLines fetch name now₁ L).eraseIdx 1 = (outputLines fetch name now₂ L).eraseIdx 1 ∧
    format_header_comment name now₁ stats₁ total info
      = format_header_comment name now₁ stats₂ total info :=
  ⟨outputLines_eraseIdx fetch name L now₁ now₂,
   format_header_perm name now₁ hp hnd total info⟩

/-- Witness for C8: two timestamps and a reordered statistics map. -/
theorem C8_deterministic_witness :
    (outputLines (fun _ => none) "n" "t1" ["DOMAIN,a.com,PROXY"]).eraseIdx 1
      = (outputLines (fun _ => none) "n" "t2" ["DOMAIN,a.com,PROXY"]).eraseIdx 1 ∧
    format_header_comment "n" "t1" [("AAA", 1), ("DOMAIN", 2)] 3 []
      = format_header_comment "n" "t1" [("DOMAIN", 2), ("AAA", 1)] 3 [] :=
  C8_deterministic (fun _ => none) "n" "t1" "t2" ["DOMAIN,a.com,PROXY"]
    [("AAA", 1), ("DOMAIN", 2)] [("DOMAIN", 2), ("AAA", 1)] 3 [] (by decide) (by decide)

/-! ### Statistics consistency (C9) -/

theorem bumpKey_sum (s : List (String × Nat)) (k : String) :
    ((bumpKey s k).map Prod.snd).sum = ((s.map Prod.snd).sum) + 1 := by
  induction s with
  | nil => simp [bumpKey]
  | cons p rest ih =>
    rcases p with ⟨k', n⟩
    by_cases h : k' = k
    · simp [bumpKey, h]
      omega
    · simp [bumpKey, h, ih]
      omega

theorem stats_sum_aux (rules : List String)
    (h : ∀ r ∈ rules, hasComma r = true ∨ pyStrip r ≠ "") :
    ∀ start : List (String × Nat),
      (((rules.foldl (fun stats rule =>
          if hasComma rule then bumpKey stats (pyStrip ((splitChar ',' rule).headD ""))
          else if pyStrip rule ≠ "" then bumpKey stats "OTHER" else stats) start)).map
        Prod.snd).sum = ((start.map Prod.snd).sum) + rules.length := by
  induction rules with
  | nil =>
    intro start
    simp
  | cons r rest ih =>
    intro start
    simp only [List.foldl_cons, List.length_cons]
    rw [ih (fun x hx => h x (List.mem_cons_of_mem _ hx))]
    rcases h r (List.mem_cons_self _ _) with hc | hc
    · rw [if_pos hc, bumpKey_sum]
      omega
    · by_cases hcm : hasComma r = true
      · rw [if_pos hcm, bumpKey_sum]
        omega
      · rw [if_neg hcm, if_pos hc, bumpKey_sum]
        omega

theorem hasComma_mid (a b : String) : hasComma (a ++ "," ++ b) = true := by
  rw [hasComma_iff, data_append, data_append]
  exact List.mem_append_left _ (List.mem_append_right _ (by decide))

theorem download_countable (f : Option String) {rt : String}
    (hrt : rt = "RULE-SET" ∨ rt = "DOMAIN-SET") :
    ∀ r ∈ (download_remote_rules f rt).1, hasComma r = true ∨ pyStrip r ≠ "" := by
  rcases f with _ | text
  · intro r hr
    simp [download_remote_rules] at hr
  · rcases hrt with rfl | rfl
    · rw [download_rules_rs]
      intro r hr
      obtain ⟨l, hl, rfl⟩ := List.mem_map.mp hr
      obtain ⟨hlm, hlk⟩ := List.mem_filter.mp hl
      obtain ⟨raw, _, rfl⟩ := List.mem_map.mp hlm
      have hlk2 : ¬ (pyStrip raw = "" ∨ strStarts (pyStrip raw) "#" = true) := by
        simpa [isKept] using hlk
      by_cases hcm : hasComma (pyStrip raw) = true
      · exact Or.inl (add_no_resolve_hasComma hcm)
      · right
        rw [add_no_resolve_no_comma (by simpa using hcm), pyStrip_idem]
        exact fun he => hlk2 (Or.inl he)
    · rw [download_rules_ds]
      intro r hr
      obtain ⟨l, hl, hconv⟩ := List.mem_filterMap.mp hr
      left
      by_cases hsk : pyStrip l = "" ∨ strStarts (pyStrip l) "#" = true
      · rw [show convert_to_domain_rule l "DOMAIN-SET" = none from by
          simp only [convert_to_domain_rule, if_pos rfl]
          rw [if_pos hsk]
          simp] at hconv
        exact Option.noConfusion hconv
      · by_cases hcm : hasComma (pyStrip l) = true
        · rw [show convert_to_domain_rule l "DOMAIN-SET" = some (pyStrip l) from by
            simp only [convert_to_domain_rule, if_pos rfl]
            rw [if_neg hsk, if_pos hcm]
            simp] at hconv
          obtain rfl := Option.some.inj hconv
          exact hcm
        · rw [show convert_to_domain_rule l "DOMAIN-SET"
              = some ("DOMAIN-SUFFIX," ++ pyStrip l) from by
            simp only [convert_to_domain_rule, if_pos rfl]
            rw [if_neg hsk, if_neg hcm]
            simp] at hconv
          obtain rfl := Option.some.inj hconv
          exact hasComma_append_left (by decide) _

theorem processLiteral_countable (st : FileState) (l : String)
    (hinv : ∀ r ∈ st.all_rules, hasComma r = true ∨ pyStrip r ≠ "") :
    ∀ r ∈ (processLiteral st l).all_rules, hasComma r = true ∨ pyStrip r ≠ "" := by
  unfold processLiteral
  split_ifs with hcm
  · intro r hr
    rcases List.mem_append.mp hr with h | h
    · exact hinv r h
    · obtain rfl := List.mem_singleton.mp h
      left
      apply add_no_resolve_hasComma
      split_ifs <;> first
        | exact hasComma_mid _ _
        | exact hcm
  · exact hinv

theorem processInputLine_countable (fetch : String → Option String) (st : FileState)
    (line : String)
    (hinv : ∀ r ∈ st.all_rules, hasComma r = true ∨ pyStrip r ≠ "") :
    ∀ r ∈ (processInputLine fetch st line).all_rules,
      hasComma r = true ∨ pyStrip r ≠ "" := by
  simp only [processInputLine]
  split_ifs with h1 h2 h3 h4 h5 h6 h7
  · exact hinv
  · intro r hr
    rcases List.mem_append.mp hr with h | h
    · exact hinv r h
    · exact download_countable _ (Or.inl rfl) r h
  · exact hinv
  · exact hinv
  · intro r hr
    rcases List.mem_append.mp hr with h | h
    · exact hinv r h
    · exact download_countable _ (Or.inr rfl) r h
  · exact hinv
  · exact hinv
  · exact processLiteral_countable st _ hinv

theorem process_countable (fetch : String → Option String) (L : List String) :
    ∀ r ∈ (process_list_file fetch L).all_rules, hasComma r = true ∨ pyStrip r ≠ "" := by
  unfold process_list_file
  suffices h : ∀ st : FileState,
      (∀ r ∈ st.all_rules, hasComma r = true ∨ pyStrip r ≠ "") →
      ∀ r ∈ (L.foldl (processInputLine fetch) st).all_rules,
        hasComma r = true ∨ pyStrip r ≠ "" by
    exact h initState (by simp [initState])
  induction L with
  | nil =>
    intro st hst
    simpa using hst
  | cons l rest ih =>
    intro st hst
    simp only [List.foldl_cons]
    exact ih _ (processInputLine_countable fetch st l hst)

/-- C9: the N of the header line Total N is the number of rule lines in
the output body, and equals the sum over all kinds, OTHER included, of the
per-kind counts, every emitted rule being counted in exactly one bucket. -/
theorem C9_total_consistency (fetch : String → Option String) (L : List String)
    (stem now : String) :
    ((get_rule_statistics (process_list_file fetch L).all_rules).map Prod.snd).sum
      = (process_list_file fetch L).all_rules.length ∧
    ("# Total: " ++ toString (process_list_file fetch L).all_rules.length)
      ∈ outputLines fetch stem now L := by
  constructor
  · have h := stats_sum_aux (process_list_file fetch L).all_rules
      (process_countable fetch L) []
    simpa [get_rule_statistics] using h
  · show _ ∈ format_header_comment stem now
      (get_rule_statistics (process_list_file fetch L).all_rules)
      (process_list_file fetch L).all_rules.length
      (process_list_file fetch L).rule_set_info
      ++ [""] ++ (process_list_file fetch L).all_rules
    apply List.mem_append_left
    apply List.mem_append_left
    simp [format_header_comment]

end ProxyRules
